import Mathlib

/-!
Verification of the real-time synchronization layer of the event_monolith_app
repository, as a shallow embedding in Lean.

The embedding covers:
* the client reconciliation store, `frontend/src/stores/events.ts`
  (mirror collection, snapshot replace, optimistic writes, broadcast merge,
  reconnection backoff of `connectWebSocket` / `disconnectWebSocket`);
* the client connection manager, `frontend/src/services/websocket.service.ts`
  (`handleMessage`, `scheduleReconnect`, `connect`, `disconnect`);
* the server broadcaster, `src/services/websocket.service.ts`
  (`broadcastEventUpdate` fallback loop, `startHeartbeat`, `addConnection`)
  together with the `/ws` route close handler of `src/index.ts`.

Entity identifiers and user identifiers are strings in the source; they are
opaque to all of the code modelled here, so they are modelled as `Nat`.
Machine timestamps and payload fields not inspected by the modelled code are
either omitted or kept as opaque fields.
-/

set_option autoImplicit false

namespace EventApp

/-! ### Data model -/

/-- An RSVP entity: the reconciliation store keys nested RSVP lists by
`userId` and never inspects the remaining fields, which are kept opaque. -/
structure Rsvp where
  userId : Nat
  status : String
  deriving Repr, DecidableEq

/-- An event entity as held by the client mirror collection
(`events.value : Event[]`).  Fields that the synchronization layer never
inspects are collapsed into `title`; `rsvps` is the nested RSVP list
(`undefined` in the source is modelled as the empty list). -/
structure Event where
  id : Nat
  title : String
  approved : Bool
  rsvps : List Rsvp
  deriving Repr, DecidableEq

/-! ### Client-side mirror collection operations (frontend/src/stores/events.ts) -/

/-- `events.value.find(e => e.id === i)`. -/
def findById (i : Nat) (es : List Event) : Option Event :=
  es.find? (fun e => e.id == i)

/-- `events.value.find(e => e.id === i)` tested for presence, or equivalently
`findIndex(...) !== -1`. -/
def containsId (i : Nat) (es : List Event) : Bool :=
  es.any (fun e => e.id == i)

/-- `events.value.splice(index, 1, e)` at
`index = events.value.findIndex(x => x.id === e.id)`: replace the first
entry whose id matches the id of `e`; `none` when no entry matches
(`findIndex` returned `-1`). -/
def setFirstById (e : Event) : List Event → Option (List Event)
  | [] => none
  | x :: xs => if x.id = e.id then some (e :: xs) else (setFirstById e xs).map (x :: ·)

/-- Optimistic local insert in `createEvent` (events.ts lines 96-100):
`if (!events.value.find(e => e.id === newEvent.id)) events.value.unshift(newEvent)`. -/
def createEventLocal (e : Event) (es : List Event) : List Event :=
  if containsId e.id es then es else e :: es

/-- `handleWebSocketMessage`, case `EVENT_CREATED`: unshift unless an entry
with the same id already exists. -/
def applyEventCreated (e : Event) (es : List Event) : List Event :=
  if containsId e.id es then es else e :: es

/-- `handleWebSocketMessage`, cases `EVENT_UPDATED` / `EVENT_APPROVED`:
replace by id via `findIndex` and `splice`, or unshift when the id is absent. -/
def applyEventUpdated (e : Event) (es : List Event) : List Event :=
  match setFirstById e es with
  | some es' => es'
  | none => e :: es

/-- `handleWebSocketMessage`, case `EVENT_DELETED`:
`events.value = events.value.filter(e => e.id !== eventId)`. -/
def applyEventDeleted (i : Nat) (es : List Event) : List Event :=
  es.filter (fun e => e.id != i)

/-- `event.rsvps[existingIndex] = rsvp` at
`existingIndex = event.rsvps.findIndex(r => r.userId === u)`; `none` when no
RSVP of that user exists. -/
def setFirstByUser (u : Nat) (r : Rsvp) : List Rsvp → Option (List Rsvp)
  | [] => none
  | x :: xs => if x.userId = u then some (r :: xs) else (setFirstByUser u r xs).map (x :: ·)

/-- The RSVP upsert of `handleWebSocketMessage` (`RSVP_CREATED` / `RSVP_UPDATED`):
replace the RSVP at the index found by user id, else `push` at the end. -/
def upsertRsvp (u : Nat) (r : Rsvp) (rs : List Rsvp) : List Rsvp :=
  match setFirstByUser u r rs with
  | some rs' => rs'
  | none => rs ++ [r]

/-- `const event = events.value.find(e => e.id === i)` followed by an in-place
mutation of the found event: rewrite the first entry whose id matches with
`f`; when no entry matches nothing happens. -/
def modifyFirstById (i : Nat) (f : Event → Event) : List Event → List Event
  | [] => []
  | x :: xs => if x.id = i then f x :: xs else x :: modifyFirstById i f xs

/-- `handleWebSocketMessage`, cases `RSVP_CREATED` / `RSVP_UPDATED`: upsert the
carried RSVP into the nested list of the event identified by the message
(`event.rsvps` is initialised to `[]` when `undefined`). -/
def applyRsvpUpserted (eventId userId : Nat) (r : Rsvp) (es : List Event) : List Event :=
  modifyFirstById eventId (fun e => { e with rsvps := upsertRsvp userId r e.rsvps }) es

/-- `handleWebSocketMessage`, case `RSVP_DELETED`:
`event.rsvps = event.rsvps.filter(r => r.userId !== userId)` on the found event. -/
def applyRsvpDeleted (eventId userId : Nat) (es : List Event) : List Event :=
  modifyFirstById eventId
    (fun e => { e with rsvps := e.rsvps.filter (fun r => r.userId != userId) }) es

/-- The closed set of broadcast mutation messages dispatched to
`handleWebSocketMessage` (`message.type` with its `message.data` fields). -/
inductive WsMsg where
  | eventCreated (e : Event)
  | eventUpdated (e : Event)
  | eventApproved (e : Event)
  | eventDeleted (eventId : Nat)
  | rsvpCreated (eventId userId : Nat) (r : Rsvp)
  | rsvpUpdated (eventId userId : Nat) (r : Rsvp)
  | rsvpDeleted (eventId userId : Nat)
  deriving Repr, DecidableEq

/-- `handleWebSocketMessage` (events.ts lines 300-363): the broadcast-driven
merge path of the reconciliation store. -/
def handleWebSocketMessage (m : WsMsg) (es : List Event) : List Event :=
  match m with
  | .eventCreated e => applyEventCreated e es
  | .eventUpdated e => applyEventUpdated e es
  | .eventApproved e => applyEventUpdated e es
  | .eventDeleted i => applyEventDeleted i es
  | .rsvpCreated i u r => applyRsvpUpserted i u r es
  | .rsvpUpdated i u r => applyRsvpUpserted i u r es
  | .rsvpDeleted i u => applyRsvpDeleted i u es

/-! ### Snapshot replace (fetchEvents, events.ts lines 39-73) -/

/-- One `Map.set(e.id, e)` step of the JavaScript `Map` built in `fetchEvents`:
when the key is already present the value is overwritten in place (the key
keeps its original position), otherwise the binding is appended. -/
def mapSet (m : List Event) (e : Event) : List Event :=
  match setFirstById e m with
  | some m' => m'
  | none => m ++ [e]

/-- `Array.from(new Map(fetchedEvents.map(event => [event.id, event])).values())`:
deduplicate by id, the last occurrence of each id providing the kept value. -/
def dedupeById (l : List Event) : List Event :=
  l.foldl mapSet []

/-- The tail of `fetchEvents`: the freshly fetched (possibly concatenated and
overlapping) list is deduplicated by id and assigned to `events.value`
wholesale; the previous mirror contents play no role. -/
def snapshotReplace (fetched : List Event) (_mirror : List Event) : List Event :=
  dedupeById fetched

/-! ### Well-formedness of the mirror -/

/-- The ids of the mirror entries. -/
def eventIds (es : List Event) : List Nat := es.map (·.id)

/-- The user ids of a nested RSVP list. -/
def rsvpUsers (rs : List Rsvp) : List Nat := rs.map (·.userId)

/-- An entity is well formed when its nested RSVP list holds at most one RSVP
per user id. -/
def WFEvent (e : Event) : Prop := (rsvpUsers e.rsvps).Nodup

/-- The mirror invariant: at most one entry per event id, and within each
entry at most one RSVP per user id. -/
def WF (es : List Event) : Prop :=
  (eventIds es).Nodup ∧ ∀ e ∈ es, WFEvent e

/-- Number of mirror entries carrying a given id. -/
def countId (i : Nat) (es : List Event) : Nat :=
  (es.filter (fun e => e.id == i)).length

/-- Well-formedness of an inbound broadcast message, as guaranteed by the
server side that constructs it: entity payloads have at most one RSVP per
user id, and RSVP messages carry `userId: rsvp.userId`
(`rsvpToEvent` / `deleteRsvp` in the RSVP controller build the payload from
the persisted row). -/
def WFMsg : WsMsg → Prop
  | .eventCreated e => WFEvent e
  | .eventUpdated e => WFEvent e
  | .eventApproved e => WFEvent e
  | .eventDeleted _ => True
  | .rsvpCreated _ u r => r.userId = u
  | .rsvpUpdated _ u r => r.userId = u
  | .rsvpDeleted _ _ => True

/-! ### Client reconnection backoff (events.ts lines 223-295 and 368-385,
websocket.service.ts lines 191-258) -/

/-- Client retry state: the attempt counter and the pending retry timer,
modelled by the delay (in milliseconds) it was armed with. -/
structure RetryState where
  wsRetryCount : Nat
  wsRetryTimeout : Option Nat
  deriving Repr, DecidableEq

/-- `Math.min(base * Math.pow(2, attempt - 1), cap)`. -/
def backoffDelay (base cap attempt : Nat) : Nat :=
  min (base * 2 ^ (attempt - 1)) cap

/-- The `ws.onclose` handler of `connectWebSocket` (events.ts lines 267-290),
parametric in the backoff base, cap and retry ceiling: clear any pending
retry timer; below the ceiling, increment the attempt counter first and arm
the retry timer with the exponential-backoff delay; at the ceiling, schedule
nothing (offline mode).  events.ts instantiates this at base 2000 ms,
cap 10000 ms, ceiling `wsMaxRetries = 10`; the websocket.service.ts client
(`handleClose` / `scheduleReconnect`) has the same structure at base 1000 ms,
cap 30000 ms, ceiling `maxReconnectAttempts = 5`. -/
def oncloseAbnormal (base cap ceiling : Nat) (s : RetryState) : RetryState :=
  if s.wsRetryCount < ceiling then
    { wsRetryCount := s.wsRetryCount + 1
      wsRetryTimeout := some (backoffDelay base cap (s.wsRetryCount + 1)) }
  else
    { s with wsRetryTimeout := none }

/-- The retry state after `n` consecutive abnormal closes starting from a
fresh connection (counter zero, no pending timer). -/
def closeTrace (base cap ceiling : Nat) : Nat → RetryState
  | 0 => ⟨0, none⟩
  | n + 1 => oncloseAbnormal base cap ceiling (closeTrace base cap ceiling n)

/-- `wsMaxRetries` of the events store. -/
def wsMaxRetries : Nat := 10

/-- The WebSocket-related state of the events store: whether `ws.value` holds
a socket, and the retry state. -/
structure StoreWsState where
  wsExists : Bool
  retry : RetryState
  deriving Repr, DecidableEq

/-- `connectWebSocket` (events.ts lines 223-243): when the attempt counter has
reached `wsMaxRetries` return immediately (no socket, no timer); otherwise
close any existing socket and open a new one. -/
def connectWebSocket (s : StoreWsState) : StoreWsState :=
  if wsMaxRetries ≤ s.retry.wsRetryCount then s
  else { s with wsExists := true }

/-- `disconnectWebSocket` (events.ts lines 368-385): clear any pending retry
timer, reset the attempt counter to zero, close and drop the socket. -/
def disconnectWebSocket (_s : StoreWsState) : StoreWsState :=
  { wsExists := false, retry := { wsRetryCount := 0, wsRetryTimeout := none } }

/-- An abnormal close as seen by the store: the socket closes and the
`onclose` handler runs with the store constants. -/
def storeCloseStep (s : StoreWsState) : StoreWsState :=
  { s with retry := oncloseAbnormal 2000 10000 wsMaxRetries s.retry }

/-- The externally driven happenings of the store state machine, manual
disconnect apart: a close of the transport, and an invocation of
`connectWebSocket` (by the retry timer or by a caller). -/
inductive StoreEvt where
  | close
  | connectCall
  deriving Repr, DecidableEq

/-- One store transition. -/
def storeStep (s : StoreWsState) : StoreEvt → StoreWsState
  | .close => storeCloseStep s
  | .connectCall => connectWebSocket s

/-- Run the store over a sequence of happenings. -/
def runStore (s : StoreWsState) (evts : List StoreEvt) : StoreWsState :=
  evts.foldl storeStep s

/-! ### The websocket.service.ts client (frontend singleton) -/

/-- `maxReconnectAttempts` of websocket.service.ts. -/
def maxReconnectAttempts : Nat := 5

/-- The module-level state of websocket.service.ts: socket present and open,
`isConnected`, the reconnection attempt counter, the pending reconnect
timer (by its delay) and the heartbeat interval. -/
structure P4State where
  wsOpen : Bool
  isConnected : Bool
  reconnectAttempts : Nat
  reconnectTimeout : Option Nat
  heartbeatOn : Bool
  deriving Repr, DecidableEq

/-- `scheduleReconnect` (websocket.service.ts lines 191-204): clear any pending
timer, increment the attempt counter first, then arm the timer with
`min(1000 * 2^(attempts - 1), 30000)`. -/
def scheduleReconnect (s : P4State) : P4State :=
  { s with
    reconnectAttempts := s.reconnectAttempts + 1
    reconnectTimeout := some (backoffDelay 1000 30000 (s.reconnectAttempts + 1)) }

/-- `handleClose` (websocket.service.ts lines 155-164): record the transport
as down and stop the heartbeat; reconnect unless the close was manual
(code 1000) or the ceiling was reached. -/
def handleClose (code : Nat) (s : P4State) : P4State :=
  let s1 : P4State := { s with wsOpen := false, isConnected := false, heartbeatOn := false }
  if code ≠ 1000 ∧ s.reconnectAttempts < maxReconnectAttempts then
    scheduleReconnect s1
  else s1

/-- `disconnect` (websocket.service.ts lines 238-258): clear the reconnect
timer, stop the heartbeat, close the socket with code 1000 when one exists,
reset `isConnected` and the attempt counter.  The second component is the
close code handed to the transport, when a close was issued. -/
def disconnect (s : P4State) : P4State × Option Nat :=
  (⟨false, false, 0, none, false⟩, if s.wsOpen then some 1000 else none)

/-- `connect` (websocket.service.ts lines 209-233): a no-op when the socket is
already open; otherwise run `disconnect()` and open a fresh socket. -/
def connect (s : P4State) : P4State :=
  if s.wsOpen then s
  else { (disconnect s).1 with wsOpen := true }

/-! ### Inbound client frame handling (websocket.service.ts lines 98-138) -/

/-- A parsed inbound frame: the `type` discriminator and an opaque payload. -/
structure ClientMsg where
  type : String
  data : Nat
  deriving Repr, DecidableEq

/-- A registered local message handler, identified by its registration index;
`throws` tells on which messages the handler raises. -/
structure HandlerSpec where
  id : Nat
  throws : ClientMsg → Bool

/-- Invoking one handler: it either returns or raises. -/
def invokeHandler (h : HandlerSpec) (m : ClientMsg) : Except Unit Unit :=
  if h.throws m then .error () else .ok ()

/-- `messageHandlers.forEach(handler => { try { handler(message) } catch ... })`:
each handler is invoked in registration order inside its own try/catch, the
catch discarding the failure so the loop continues.  Returns the ids of the
handlers that were invoked. -/
def dispatchToHandlers : List HandlerSpec → ClientMsg → List Nat
  | [], _ => []
  | h :: hs, m =>
    match invokeHandler h m with
    | .ok _ => h.id :: dispatchToHandlers hs m
    | .error _ => h.id :: dispatchToHandlers hs m

/-- The observable outcome of handling one inbound frame: frames sent back on
the socket, handler ids invoked, and whether the connection was closed. -/
structure RecvOutcome where
  sentFrames : List String
  invoked : List Nat
  closed : Bool
  deriving Repr, DecidableEq

/-- `handleMessage` (websocket.service.ts lines 98-138).  `frame = none` models
an unparseable frame: `JSON.parse` throws, the catch logs and discards it.
`PING` is answered with a `PONG` when the socket is open; `PONG`,
`CONNECTED` and `MESSAGE_RECEIVED` are consumed; every other frame is
dispatched to the registered handlers.  No branch closes the connection. -/
def handleMessage (wsOpen : Bool) (hs : List HandlerSpec) (frame : Option ClientMsg) :
    RecvOutcome :=
  match frame with
  | none => ⟨[], [], false⟩
  | some m =>
    if m.type = "PING" then ⟨if wsOpen then ["PONG"] else [], [], false⟩
    else if m.type = "PONG" then ⟨[], [], false⟩
    else if m.type = "CONNECTED" then ⟨[], [], false⟩
    else if m.type = "MESSAGE_RECEIVED" then ⟨[], [], false⟩
    else ⟨[], dispatchToHandlers hs m, false⟩

/-- The receive loop: inbound frames are handled one at a time for as long as
the connection stays open. -/
def recvLoop (wsOpen : Bool) (hs : List HandlerSpec) : List (Option ClientMsg) → List RecvOutcome
  | [] => []
  | f :: fs =>
    let o := handleMessage wsOpen hs f
    o :: (if o.closed then [] else recvLoop wsOpen hs fs)

/-! ### Server broadcaster (src/services/websocket.service.ts) -/

/-- A server-side transport handle as seen by the broadcast fallback loop:
its identity, its `readyState` (1 = OPEN) and whether `ws.send` raises
(half-closed transport). -/
structure Conn where
  id : Nat
  readyState : Nat
  sendFails : Bool
  deriving Repr, DecidableEq

/-- A delivery to this connection succeeds: it is OPEN and `send` returns. -/
def deliverOk (c : Conn) : Bool :=
  c.readyState == 1 && !c.sendFails

/-- The outcome of one broadcast over the fallback registry: the connections
still registered, the ids delivered to in order, and the two counters the
code keeps. -/
structure BroadcastResult where
  remaining : List Conn
  delivered : List Nat
  sentCount : Nat
  failedCount : Nat
  deriving Repr, DecidableEq

/-- `broadcastEventUpdate` (lines 137-177), fallback path over
`connections.forEach`: an OPEN connection is sent the message inside a try
(the catch deletes the connection and counts a failure); a non-OPEN
connection is deleted and counted as failed.  Nothing is retried. -/
def broadcastEventUpdate : List Conn → BroadcastResult
  | [] => ⟨[], [], 0, 0⟩
  | ws :: rest =>
    let r := broadcastEventUpdate rest
    if ws.readyState == 1 then
      if ws.sendFails then ⟨r.remaining, r.delivered, r.sentCount, r.failedCount + 1⟩
      else ⟨ws :: r.remaining, ws.id :: r.delivered, r.sentCount + 1, r.failedCount⟩
    else ⟨r.remaining, r.delivered, r.sentCount, r.failedCount + 1⟩

/-! ### Server heartbeat (startHeartbeat, addConnection, and the index.ts
close handler) -/

/-- A server connection for the heartbeat cycle: its identity and the
`_isAlive` flag. -/
structure SConn where
  id : Nat
  isAlive : Bool
  deriving Repr, DecidableEq

/-- The server connection registry: the live-connection set and the two topic
subscriber sets maintained by the transport (`events` and `rsvps`; every
connection subscribes to both in the `/ws` open handler). -/
structure ServerState where
  connections : List SConn
  eventsSubs : List Nat
  rsvpsSubs : List Nat
  deriving Repr, DecidableEq

/-- The `/ws` route `close` callback (index.ts lines 64-70): unsubscribe the
connection from the `events` and `rsvps` topics. -/
def closeHandler (i : Nat) (s : ServerState) : ServerState :=
  { s with
    eventsSubs := s.eventsSubs.filter (fun j => j != i)
    rsvpsSubs := s.rsvpsSubs.filter (fun j => j != i) }

/-- The per-connection loop of one `startHeartbeat` tick (lines 88-122):
a connection whose `_isAlive` is `false` is terminated and deleted from the
live set; otherwise it is marked not alive and sent a liveness probe.
Returns the surviving connections, the pinged ids, and the terminated ids. -/
def tickConns : List SConn → List SConn × List Nat × List Nat
  | [] => ([], [], [])
  | ws :: rest =>
    let r := tickConns rest
    if ws.isAlive then ({ ws with isAlive := false } :: r.1, ws.id :: r.2.1, r.2.2)
    else (r.1, r.2.1, ws.id :: r.2.2)

/-- One heartbeat tick over the whole registry: the tick loop runs, and for
each terminated connection the transport fires its close callback, which
removes the connection from both topic subscriber sets.  Returns the new
registry, the pinged ids and the terminated ids. -/
def heartbeatTick (s : ServerState) : ServerState × List Nat × List Nat :=
  ((tickConns s.connections).2.2.foldl (fun st i => closeHandler i st)
      { s with connections := (tickConns s.connections).1 },
   (tickConns s.connections).2.1,
   (tickConns s.connections).2.2)

/-- The `pong` listener attached in `addConnection` (lines 54-58): a pong from
the peer marks that connection alive again. -/
def onPong (i : Nat) (s : ServerState) : ServerState :=
  { s with
    connections := s.connections.map
      (fun ws => if ws.id = i then { ws with isAlive := true } else ws) }

/-- `addConnection` (lines 49-68): the connection is marked alive and added to
the live set. -/
def addConnection (ws : SConn) (s : ServerState) : ServerState :=
  { s with connections := { ws with isAlive := true } :: s.connections }

/-! ### Helper lemmas about the mirror operations -/

theorem setFirstById_eq_none_iff (e : Event) (es : List Event) :
    setFirstById e es = none ↔ ∀ x ∈ es, x.id ≠ e.id := by
  induction es with
  | nil => simp [setFirstById]
  | cons x xs ih =>
    by_cases h : x.id = e.id
    · simp [setFirstById, h]
    · simp [setFirstById, h, Option.map_eq_none', ih]

theorem setFirstById_cons_of_ne (e x : Event) (xs : List Event) (h : x.id ≠ e.id) :
    setFirstById e (x :: xs) = (setFirstById e xs).map (x :: ·) := by
  simp [setFirstById, h]

theorem eventIds_setFirstById (e : Event) :
    ∀ (es es' : List Event), setFirstById e es = some es' → eventIds es' = eventIds es := by
  intro es
  induction es with
  | nil => intro es' h; simp [setFirstById] at h
  | cons x xs ih =>
    intro es' h
    by_cases hx : x.id = e.id
    · simp only [setFirstById, if_pos hx] at h
      cases h
      simp [eventIds, hx]
    · rw [setFirstById_cons_of_ne e x xs hx, Option.map_eq_some'] at h
      obtain ⟨ys, hy, rfl⟩ := h
      have h' := ih ys hy
      simp only [eventIds, List.map_cons] at h' ⊢
      rw [h']

theorem mem_setFirstById (e : Event) :
    ∀ (es es' : List Event), setFirstById e es = some es' →
      ∀ x ∈ es', x = e ∨ x ∈ es := by
  intro es
  induction es with
  | nil => intro es' h; simp [setFirstById] at h
  | cons x xs ih =>
    intro es' h
    by_cases hx : x.id = e.id
    · simp only [setFirstById, if_pos hx] at h
      cases h
      intro y hy
      rcases List.mem_cons.1 hy with rfl | hy
      · exact Or.inl rfl
      · exact Or.inr (List.mem_cons_of_mem _ hy)
    · rw [setFirstById_cons_of_ne e x xs hx, Option.map_eq_some'] at h
      obtain ⟨ys, hy, rfl⟩ := h
      intro y hyy
      rcases List.mem_cons.1 hyy with rfl | hyy
      · exact Or.inr (List.mem_cons_self _ _)
      · rcases ih ys hy y hyy with h' | h'
        · exact Or.inl h'
        · exact Or.inr (List.mem_cons_of_mem _ h')

theorem findById_setFirstById_self (e : Event) :
    ∀ (es es' : List Event), setFirstById e es = some es' →
      findById e.id es' = some e := by
  intro es
  induction es with
  | nil => intro es' h; simp [setFirstById] at h
  | cons x xs ih =>
    intro es' h
    by_cases hx : x.id = e.id
    · simp only [setFirstById, if_pos hx] at h
      cases h
      simp [findById]
    · rw [setFirstById_cons_of_ne e x xs hx, Option.map_eq_some'] at h
      obtain ⟨ys, hy, rfl⟩ := h
      simpa [findById, List.find?_cons, hx] using ih ys hy

theorem findById_setFirstById_ne (e : Event) (i : Nat) (hne : i ≠ e.id) :
    ∀ (es es' : List Event), setFirstById e es = some es' →
      findById i es' = findById i es := by
  intro es
  induction es with
  | nil => intro es' h; simp [setFirstById] at h
  | cons x xs ih =>
    intro es' h
    by_cases hx : x.id = e.id
    · simp only [setFirstById, if_pos hx] at h
      cases h
      have h1 : (e.id == i) = false := beq_eq_false_iff_ne.mpr (Ne.symm hne)
      have h2 : (x.id == i) = false := by
        rw [hx]; exact beq_eq_false_iff_ne.mpr (Ne.symm hne)
      simp [findById, List.find?_cons, h1, h2]
    · rw [setFirstById_cons_of_ne e x xs hx, Option.map_eq_some'] at h
      obtain ⟨ys, hy, rfl⟩ := h
      by_cases hxi : x.id = i
      · simp [findById, List.find?_cons, hxi]
      · have h2 : (x.id == i) = false := by simp [hxi]
        simpa [findById, List.find?_cons, h2] using ih ys hy

theorem length_setFirstById (e : Event) :
    ∀ (es es' : List Event), setFirstById e es = some es' →
      es'.length = es.length := by
  intro es
  induction es with
  | nil => intro es' h; simp [setFirstById] at h
  | cons x xs ih =>
    intro es' h
    by_cases hx : x.id = e.id
    · simp only [setFirstById, if_pos hx] at h
      cases h
      simp
    · rw [setFirstById_cons_of_ne e x xs hx, Option.map_eq_some'] at h
      obtain ⟨ys, hy, rfl⟩ := h
      simp [ih ys hy]

theorem containsId_eq_false_iff (i : Nat) (es : List Event) :
    containsId i es = false ↔ ∀ x ∈ es, x.id ≠ i := by
  simp [containsId, List.any_eq_false]

theorem containsId_eq_true_iff (i : Nat) (es : List Event) :
    containsId i es = true ↔ ∃ x ∈ es, x.id = i := by
  simp [containsId, List.any_eq_true]

theorem setFirstById_isSome_of_containsId (e : Event) (es : List Event)
    (h : containsId e.id es = true) : ∃ es', setFirstById e es = some es' := by
  cases hs : setFirstById e es with
  | some es' => exact ⟨es', rfl⟩
  | none =>
    rw [setFirstById_eq_none_iff] at hs
    rw [containsId_eq_true_iff] at h
    obtain ⟨x, hx, hxi⟩ := h
    exact absurd hxi (hs x hx)

theorem setFirstByUser_eq_none_iff (u : Nat) (r : Rsvp) (rs : List Rsvp) :
    setFirstByUser u r rs = none ↔ ∀ x ∈ rs, x.userId ≠ u := by
  induction rs with
  | nil => simp [setFirstByUser]
  | cons x xs ih =>
    by_cases h : x.userId = u
    · simp [setFirstByUser, h]
    · simp [setFirstByUser, h, Option.map_eq_none', ih]

theorem rsvpUsers_setFirstByUser (u : Nat) (r : Rsvp) (hu : r.userId = u) :
    ∀ (rs rs' : List Rsvp), setFirstByUser u r rs = some rs' →
      rsvpUsers rs' = rsvpUsers rs := by
  intro rs
  induction rs with
  | nil => intro rs' h; simp [setFirstByUser] at h
  | cons x xs ih =>
    intro rs' h
    by_cases hx : x.userId = u
    · simp only [setFirstByUser, if_pos hx] at h
      cases h
      simp [rsvpUsers, hu, hx]
    · simp only [setFirstByUser, if_neg hx, Option.map_eq_some'] at h
      obtain ⟨ys, hy, rfl⟩ := h
      have h' := ih ys hy
      simp only [rsvpUsers, List.map_cons] at h' ⊢
      rw [h']

theorem rsvpUsers_upsertRsvp (u : Nat) (r : Rsvp) (rs : List Rsvp)
    (hu : r.userId = u) (h : (rsvpUsers rs).Nodup) :
    (rsvpUsers (upsertRsvp u r rs)).Nodup := by
  unfold upsertRsvp
  cases hs : setFirstByUser u r rs with
  | some rs' => rw [rsvpUsers_setFirstByUser u r hu rs rs' hs]; exact h
  | none =>
    rw [setFirstByUser_eq_none_iff] at hs
    have : rsvpUsers (rs ++ [r]) = rsvpUsers rs ++ [r.userId] := by simp [rsvpUsers]
    rw [this, List.nodup_append]
    refine ⟨h, List.nodup_singleton _, ?_⟩
    intro a ha hb
    have : a = r.userId := by simpa using hb
    subst this
    rw [hu] at ha
    obtain ⟨x, hx, hxa⟩ := by simpa [rsvpUsers] using ha
    exact hs x hx (by simp [hxa, hu])

theorem modifyFirstById_eq_self (i : Nat) (f : Event → Event) :
    ∀ (es : List Event), (∀ x ∈ es, x.id ≠ i) → modifyFirstById i f es = es := by
  intro es
  induction es with
  | nil => intro _; rfl
  | cons x xs ih =>
    intro h
    have hx : x.id ≠ i := h x (List.mem_cons_self _ _)
    simp only [modifyFirstById, if_neg hx]
    rw [ih (fun y hy => h y (List.mem_cons_of_mem _ hy))]

theorem eventIds_modifyFirstById (i : Nat) (f : Event → Event)
    (hf : ∀ e, (f e).id = e.id) :
    ∀ (es : List Event), eventIds (modifyFirstById i f es) = eventIds es := by
  intro es
  induction es with
  | nil => rfl
  | cons x xs ih =>
    by_cases hx : x.id = i
    · simp [modifyFirstById, hx, eventIds, hf]
    · simp only [modifyFirstById, if_neg hx]
      simp [eventIds] at ih ⊢
      exact ih

theorem mem_modifyFirstById (i : Nat) (f : Event → Event) :
    ∀ (es : List Event), ∀ x ∈ modifyFirstById i f es, x ∈ es ∨ ∃ e ∈ es, x = f e := by
  intro es
  induction es with
  | nil => intro x hx; simp [modifyFirstById] at hx
  | cons y ys ih =>
    intro x hx
    by_cases hy : y.id = i
    · simp only [modifyFirstById, if_pos hy] at hx
      rcases List.mem_cons.1 hx with rfl | hx
      · exact Or.inr ⟨y, List.mem_cons_self _ _, rfl⟩
      · exact Or.inl (List.mem_cons_of_mem _ hx)
    · simp only [modifyFirstById, if_neg hy] at hx
      rcases List.mem_cons.1 hx with rfl | hx
      · exact Or.inl (List.mem_cons_self _ _)
      · rcases ih x hx with h' | ⟨e, he, rfl⟩
        · exact Or.inl (List.mem_cons_of_mem _ h')
        · exact Or.inr ⟨e, List.mem_cons_of_mem _ he, rfl⟩

/-! ### Helper lemmas about the snapshot deduplication -/

theorem find?_append_of_none {α : Type} (p : α → Bool) (l₁ l₂ : List α)
    (h : l₁.find? p = none) : (l₁ ++ l₂).find? p = l₂.find? p := by
  rw [List.find?_append, h, Option.none_or]

theorem findById_mapSet_self (m : List Event) (e : Event) :
    findById e.id (mapSet m e) = some e := by
  unfold mapSet
  cases hs : setFirstById e m with
  | some m' => exact findById_setFirstById_self e m m' hs
  | none =>
    rw [setFirstById_eq_none_iff] at hs
    have hnone : m.find? (fun x => x.id == e.id) = none := by
      rw [List.find?_eq_none]
      intro x hx
      simp [hs x hx]
    unfold findById
    rw [find?_append_of_none _ m [e] hnone]
    simp [List.find?_cons]

theorem findById_mapSet_ne (m : List Event) (e : Event) (i : Nat) (hne : i ≠ e.id) :
    findById i (mapSet m e) = findById i m := by
  unfold mapSet
  cases hs : setFirstById e m with
  | some m' => exact findById_setFirstById_ne e i hne m m' hs
  | none =>
    unfold findById
    rw [List.find?_append]
    have : [e].find? (fun x => x.id == i) = none := by
      simp [List.find?_cons, beq_eq_false_iff_ne.mpr (Ne.symm hne)]
    rw [this, Option.or_none]

theorem eventIds_mapSet_of_none (m : List Event) (e : Event)
    (hs : setFirstById e m = none) : eventIds (mapSet m e) = eventIds m ++ [e.id] := by
  unfold mapSet
  rw [hs]
  simp [eventIds]

theorem nodupIds_mapSet (m : List Event) (e : Event) (h : (eventIds m).Nodup) :
    (eventIds (mapSet m e)).Nodup := by
  unfold mapSet
  cases hs : setFirstById e m with
  | some m' => rw [eventIds_setFirstById e m m' hs]; exact h
  | none =>
    rw [setFirstById_eq_none_iff] at hs
    have : eventIds (m ++ [e]) = eventIds m ++ [e.id] := by simp [eventIds]
    rw [this, List.nodup_append]
    refine ⟨h, List.nodup_singleton _, ?_⟩
    intro a ha hb
    have hae : a = e.id := by simpa using hb
    subst hae
    obtain ⟨x, hx, hxa⟩ := by simpa [eventIds] using ha
    exact hs x hx hxa

theorem mem_mapSet (m : List Event) (e : Event) :
    ∀ x ∈ mapSet m e, x = e ∨ x ∈ m := by
  unfold mapSet
  cases hs : setFirstById e m with
  | some m' => exact mem_setFirstById e m m' hs
  | none =>
    intro x hx
    rcases List.mem_append.1 hx with h' | h'
    · exact Or.inr h'
    · exact Or.inl (by simpa using h')

theorem nodupIds_foldl_mapSet :
    ∀ (l acc : List Event), (eventIds acc).Nodup →
      (eventIds (l.foldl mapSet acc)).Nodup := by
  intro l
  induction l with
  | nil => intro acc h; exact h
  | cons e l ih =>
    intro acc h
    exact ih (mapSet acc e) (nodupIds_mapSet acc e h)

theorem mem_foldl_mapSet :
    ∀ (l acc : List Event), ∀ x ∈ l.foldl mapSet acc, x ∈ acc ∨ x ∈ l := by
  intro l
  induction l with
  | nil => intro acc x hx; exact Or.inl hx
  | cons e l ih =>
    intro acc x hx
    rcases ih (mapSet acc e) x hx with h' | h'
    · rcases mem_mapSet acc e x h' with rfl | h''
      · exact Or.inr (List.mem_cons_self _ _)
      · exact Or.inl h''
    · exact Or.inr (List.mem_cons_of_mem _ h')

theorem findById_foldl_mapSet_of_absent :
    ∀ (l acc : List Event) (i : Nat), (∀ x ∈ l, x.id ≠ i) →
      findById i (l.foldl mapSet acc) = findById i acc := by
  intro l
  induction l with
  | nil => intro acc i _; rfl
  | cons e l ih =>
    intro acc i h
    have he : e.id ≠ i := h e (List.mem_cons_self _ _)
    have : findById i (l.foldl mapSet (mapSet acc e)) = findById i (mapSet acc e) :=
      ih (mapSet acc e) i (fun x hx => h x (List.mem_cons_of_mem _ hx))
    rw [List.foldl_cons, this, findById_mapSet_ne acc e i (Ne.symm he)]

theorem findById_foldl_mapSet_of_getLast :
    ∀ (l acc : List Event) (i : Nat) (e : Event),
      (l.filter (fun x => x.id == i)).getLast? = some e →
      findById i (l.foldl mapSet acc) = some e := by
  intro l
  induction l with
  | nil => intro acc i e h; simp at h
  | cons x l ih =>
    intro acc i e h
    rw [List.foldl_cons]
    by_cases hx : x.id = i
    · rw [List.filter_cons_of_pos (by simp [hx])] at h
      cases hfl : l.filter (fun y => y.id == i) with
      | nil =>
        rw [hfl, List.getLast?_singleton] at h
        cases h
        have habs : ∀ y ∈ l, y.id ≠ i := by
          rw [List.filter_eq_nil_iff] at hfl
          intro y hy
          simpa using hfl y hy
        rw [findById_foldl_mapSet_of_absent l (mapSet acc x) i habs]
        rw [← hx]
        exact findById_mapSet_self acc x
      | cons z zs =>
        rw [hfl, List.getLast?_cons_cons] at h
        exact ih (mapSet acc x) i e (by rw [hfl]; exact h)
    · rw [List.filter_cons_of_neg (by simp [hx])] at h
      exact ih (mapSet acc x) i e h

/-! ### Preservation of the mirror invariant -/

theorem eventIds_cons (x : Event) (xs : List Event) :
    eventIds (x :: xs) = x.id :: eventIds xs := rfl

theorem mem_eventIds (i : Nat) (es : List Event) :
    i ∈ eventIds es ↔ ∃ x ∈ es, x.id = i := by
  simp [eventIds]

theorem WF_insert_front (e : Event) (es : List Event) (h : WF es) (he : WFEvent e)
    (habs : ∀ x ∈ es, x.id ≠ e.id) : WF (e :: es) := by
  constructor
  · rw [eventIds_cons, List.nodup_cons]
    refine ⟨?_, h.1⟩
    intro hmem
    obtain ⟨x, hx, hxa⟩ := (mem_eventIds _ _).1 hmem
    exact habs x hx hxa
  · intro x hx
    rcases List.mem_cons.1 hx with rfl | hx
    · exact he
    · exact h.2 x hx

theorem WF_applyEventCreated (e : Event) (es : List Event) (h : WF es) (he : WFEvent e) :
    WF (applyEventCreated e es) := by
  unfold applyEventCreated
  cases hc : containsId e.id es with
  | true => simp only [hc, if_true]; exact h
  | false =>
    simp only [hc, Bool.false_eq_true, if_false]
    exact WF_insert_front e es h he ((containsId_eq_false_iff _ _).1 hc)

theorem WF_createEventLocal (e : Event) (es : List Event) (h : WF es) (he : WFEvent e) :
    WF (createEventLocal e es) :=
  WF_applyEventCreated e es h he

theorem WF_applyEventUpdated (e : Event) (es : List Event) (h : WF es) (he : WFEvent e) :
    WF (applyEventUpdated e es) := by
  unfold applyEventUpdated
  cases hs : setFirstById e es with
  | some es' =>
    constructor
    · rw [eventIds_setFirstById e es es' hs]; exact h.1
    · intro x hx
      rcases mem_setFirstById e es es' hs x hx with rfl | hx
      · exact he
      · exact h.2 x hx
  | none =>
    exact WF_insert_front e es h he ((setFirstById_eq_none_iff e es).1 hs)

theorem WF_applyEventDeleted (i : Nat) (es : List Event) (h : WF es) :
    WF (applyEventDeleted i es) := by
  constructor
  · have hsub : List.Sublist (eventIds (applyEventDeleted i es)) (eventIds es) :=
      List.Sublist.map _ (List.filter_sublist es)
    exact List.Nodup.sublist hsub h.1
  · intro x hx
    exact h.2 x (List.mem_filter.1 hx).1

theorem WF_applyRsvpUpserted (i u : Nat) (r : Rsvp) (es : List Event)
    (h : WF es) (hu : r.userId = u) : WF (applyRsvpUpserted i u r es) := by
  unfold applyRsvpUpserted
  constructor
  · rw [eventIds_modifyFirstById i (fun e => { e with rsvps := upsertRsvp u r e.rsvps })
      (fun e => rfl) es]
    exact h.1
  · intro x hx
    rcases mem_modifyFirstById i _ es x hx with hx' | ⟨e, he, rfl⟩
    · exact h.2 x hx'
    · exact rsvpUsers_upsertRsvp u r e.rsvps hu (h.2 e he)

theorem WF_applyRsvpDeleted (i u : Nat) (es : List Event) (h : WF es) :
    WF (applyRsvpDeleted i u es) := by
  unfold applyRsvpDeleted
  constructor
  · rw [eventIds_modifyFirstById i
      (fun e => { e with rsvps := e.rsvps.filter (fun r => r.userId != u) })
      (fun e => rfl) es]
    exact h.1
  · intro x hx
    rcases mem_modifyFirstById i _ es x hx with hx' | ⟨e, he, rfl⟩
    · exact h.2 x hx'
    · have hsub : List.Sublist (rsvpUsers (e.rsvps.filter (fun r => r.userId != u)))
          (rsvpUsers e.rsvps) :=
        List.Sublist.map _ (List.filter_sublist e.rsvps)
      exact List.Nodup.sublist hsub (h.2 e he)

theorem WF_dedupeById (l : List Event) (h : ∀ e ∈ l, WFEvent e) : WF (dedupeById l) := by
  constructor
  · exact nodupIds_foldl_mapSet l [] (by simp [eventIds])
  · intro x hx
    rcases mem_foldl_mapSet l [] x hx with h' | h'
    · simp at h'
    · exact h x h'

/-! ### Counting entries by id -/

theorem countId_eq_zero (i : Nat) (es : List Event) (h : ∀ x ∈ es, x.id ≠ i) :
    countId i es = 0 := by
  unfold countId
  rw [List.filter_eq_nil_iff.2 (by intro a ha; simpa using h a ha)]
  rfl

theorem countId_eq_one_of_mem (i : Nat) :
    ∀ (es : List Event), (eventIds es).Nodup → containsId i es = true →
      countId i es = 1 := by
  intro es
  induction es with
  | nil => intro _ hc; simp [containsId] at hc
  | cons x xs ih =>
    intro hnd hc
    have hnd' : x.id ∉ eventIds xs ∧ (eventIds xs).Nodup := by
      rw [eventIds_cons, List.nodup_cons] at hnd
      exact hnd
    by_cases hx : x.id = i
    · unfold countId
      rw [List.filter_cons_of_pos (by simp [hx])]
      have hxs : ∀ y ∈ xs, y.id ≠ i := by
        intro y hy hyi
        exact hnd'.1 ((mem_eventIds _ _).2 ⟨y, hy, by rw [hyi, hx]⟩)
      rw [List.filter_eq_nil_iff.2 (by intro a ha; simpa using hxs a ha)]
      rfl
    · have hc' : containsId i xs = true := by
        rcases (containsId_eq_true_iff i (x :: xs)).1 hc with ⟨y, hy, hyi⟩
        rcases List.mem_cons.1 hy with rfl | hy
        · exact absurd hyi hx
        · exact (containsId_eq_true_iff i xs).2 ⟨y, hy, hyi⟩
      have : countId i (x :: xs) = countId i xs := by
        unfold countId
        rw [List.filter_cons_of_neg (by simp [hx])]
      rw [this]
      exact ih hnd'.2 hc'

instance (e : Event) : Decidable (WFEvent e) := by
  unfold WFEvent; infer_instance

instance (es : List Event) : Decidable (WF es) := by
  unfold WF; infer_instance

/-! ### Claim theorems -/

/-- C1: on an abnormal close below the retry ceiling, the client connection
manager increments the attempt counter first and arms the retry timer with a
delay of `min(base * 2^(attempt - 1), cap)` milliseconds; with ceiling 5,
base 2000 ms and cap 10000 ms, consecutive abnormal closes produce the delays
2000, 4000, 8000, 10000, 10000 for attempts 1 through 5, and after attempt 5
no further attempt is ever scheduled. -/
theorem c1_backoff_schedule :
    (∀ (base cap ceiling : Nat) (s : RetryState), s.wsRetryCount < ceiling →
      (oncloseAbnormal base cap ceiling s).wsRetryCount = s.wsRetryCount + 1 ∧
      (oncloseAbnormal base cap ceiling s).wsRetryTimeout =
        some (min (base * 2 ^ (s.wsRetryCount + 1 - 1)) cap)) ∧
    ((closeTrace 2000 10000 5 1).wsRetryTimeout = some 2000 ∧
     (closeTrace 2000 10000 5 2).wsRetryTimeout = some 4000 ∧
     (closeTrace 2000 10000 5 3).wsRetryTimeout = some 8000 ∧
     (closeTrace 2000 10000 5 4).wsRetryTimeout = some 10000 ∧
     (closeTrace 2000 10000 5 5).wsRetryTimeout = some 10000) ∧
    (∀ n : Nat, closeTrace 2000 10000 5 (n + 6) = ⟨5, none⟩) := by
  refine ⟨?_, by decide, ?_⟩
  · intro base cap ceiling s h
    simp [oncloseAbnormal, backoffDelay, h]
  · intro n
    induction n with
    | zero => decide
    | succ k ih =>
      have hstep : closeTrace 2000 10000 5 (k + 1 + 6) =
          oncloseAbnormal 2000 10000 5 (closeTrace 2000 10000 5 (k + 6)) := rfl
      rw [hstep, ih]
      decide

/-- Witness for C1: a first abnormal close from the fresh state increments the
counter to 1 and schedules a 2000 ms retry. -/
theorem c1_backoff_schedule_witness :
    (oncloseAbnormal 2000 10000 5 ⟨0, none⟩).wsRetryCount = 1 ∧
    (oncloseAbnormal 2000 10000 5 ⟨0, none⟩).wsRetryTimeout = some 2000 := by
  have h := c1_backoff_schedule.1 2000 10000 5 ⟨0, none⟩ (by decide)
  refine ⟨h.1, ?_⟩
  rw [h.2]
  decide

/-- C2: the mirror invariant (at most one entry per event id, at most one RSVP
per user id inside each entry) is preserved by the snapshot replace, the
optimistic local insert and every broadcast-driven merge, for well-formed
incoming payloads; and an optimistic insert of an id followed by a broadcast
created message for the same id leaves exactly one entry with that id. -/
theorem c2_mirror_invariant_preserved :
    (∀ (l m : List Event), (∀ e ∈ l, WFEvent e) → WF (snapshotReplace l m)) ∧
    (∀ (e : Event) (es : List Event), WF es → WFEvent e → WF (createEventLocal e es)) ∧
    (∀ (msg : WsMsg) (es : List Event), WF es → WFMsg msg →
      WF (handleWebSocketMessage msg es)) ∧
    (∀ (e e' : Event) (es : List Event), WF es → e'.id = e.id →
      countId e.id (handleWebSocketMessage (.eventCreated e') (createEventLocal e es)) = 1) := by
  refine ⟨?_, ?_, ?_, ?_⟩
  · intro l m h
    exact WF_dedupeById l h
  · intro e es h he
    exact WF_createEventLocal e es h he
  · intro msg es h hm
    cases msg with
    | eventCreated e => exact WF_applyEventCreated e es h hm
    | eventUpdated e => exact WF_applyEventUpdated e es h hm
    | eventApproved e => exact WF_applyEventUpdated e es h hm
    | eventDeleted i => exact WF_applyEventDeleted i es h
    | rsvpCreated i u r => exact WF_applyRsvpUpserted i u r es h hm
    | rsvpUpdated i u r => exact WF_applyRsvpUpserted i u r es h hm
    | rsvpDeleted i u => exact WF_applyRsvpDeleted i u es h
  · intro e e' es h hid
    show countId e.id (applyEventCreated e' (createEventLocal e es)) = 1
    unfold createEventLocal
    cases hc : containsId e.id es with
    | true =>
      simp only [hc, if_true]
      have hc' : containsId e'.id es = true := by rw [hid]; exact hc
      unfold applyEventCreated
      simp only [hc', if_true]
      exact countId_eq_one_of_mem e.id es h.1 hc
    | false =>
      simp only [hc, Bool.false_eq_true, if_false]
      have hc' : containsId e'.id (e :: es) = true := by
        rw [containsId_eq_true_iff]
        exact ⟨e, List.mem_cons_self _ _, hid.symm⟩
      unfold applyEventCreated
      simp only [hc', if_true]
      unfold countId
      rw [List.filter_cons_of_pos (by simp),
        List.filter_eq_nil_iff.2
          (by intro a ha; simpa using (containsId_eq_false_iff e.id es).1 hc a ha)]
      rfl

/-- Witness for C2: a concrete broadcast RSVP merge preserves the invariant,
and the optimistic-insert-then-created sequence for id 1 leaves one entry. -/
theorem c2_mirror_invariant_preserved_witness :
    WF (handleWebSocketMessage (.rsvpCreated 1 7 ⟨7, "GOING"⟩) [⟨1, "b", false, []⟩]) ∧
    countId 1 (handleWebSocketMessage (.eventCreated ⟨1, "x", true, []⟩)
      (createEventLocal ⟨1, "y", false, []⟩ [])) = 1 :=
  ⟨c2_mirror_invariant_preserved.2.2.1 (.rsvpCreated 1 7 ⟨7, "GOING"⟩)
      [⟨1, "b", false, []⟩] (by decide) rfl,
   c2_mirror_invariant_preserved.2.2.2 ⟨1, "y", false, []⟩ ⟨1, "x", true, []⟩ []
      (by decide) rfl⟩

/-- C3: a broadcast created message followed by a deleted message for the same
id leaves the mirror without that id, and a deleted message for an absent id
leaves the mirror unchanged. -/
theorem c3_delete_after_create_and_idempotence :
    (∀ (es : List Event) (e : Event),
      ∀ x ∈ handleWebSocketMessage (.eventDeleted e.id)
          (handleWebSocketMessage (.eventCreated e) es), x.id ≠ e.id) ∧
    (∀ (es : List Event) (i : Nat), (∀ x ∈ es, x.id ≠ i) →
      handleWebSocketMessage (.eventDeleted i) es = es) := by
  constructor
  · intro es e x hx
    simp only [handleWebSocketMessage, applyEventDeleted] at hx
    have h2 := (List.mem_filter.1 hx).2
    simpa using h2
  · intro es i h
    show applyEventDeleted i es = es
    unfold applyEventDeleted
    exact List.filter_eq_self.2 (fun a ha => by simpa using h a ha)

/-- Witness for C3: deleting id 5 from a mirror holding only id 1 is a no-op. -/
theorem c3_delete_after_create_and_idempotence_witness :
    handleWebSocketMessage (.eventDeleted 5) [⟨1, "a", true, []⟩] = [⟨1, "a", true, []⟩] :=
  c3_delete_after_create_and_idempotence.2 [⟨1, "a", true, []⟩] 5 (by decide)

/-- C4: an updated or approved broadcast message replaces the entry with the
carried id when the mirror contains it (the lookup for that id yields the
carried entity, every other id is untouched, the id multiset and the length
are unchanged), and inserts the carried entity when the mirror does not
contain the id. -/
theorem c4_update_replaces_or_inserts :
    (∀ (e : Event) (es : List Event),
      handleWebSocketMessage (.eventUpdated e) es = applyEventUpdated e es ∧
      handleWebSocketMessage (.eventApproved e) es = applyEventUpdated e es) ∧
    (∀ (e : Event) (es : List Event),
      (containsId e.id es = true →
        findById e.id (applyEventUpdated e es) = some e ∧
        (∀ i : Nat, i ≠ e.id → findById i (applyEventUpdated e es) = findById i es) ∧
        eventIds (applyEventUpdated e es) = eventIds es ∧
        (applyEventUpdated e es).length = es.length) ∧
      (containsId e.id es = false → applyEventUpdated e es = e :: es)) := by
  refine ⟨fun e es => ⟨rfl, rfl⟩, ?_⟩
  intro e es
  constructor
  · intro hc
    obtain ⟨es', hs⟩ := setFirstById_isSome_of_containsId e es hc
    unfold applyEventUpdated
    rw [hs]
    exact ⟨findById_setFirstById_self e es es' hs,
           fun i hi => findById_setFirstById_ne e i hi es es' hs,
           eventIds_setFirstById e es es' hs,
           length_setFirstById e es es' hs⟩
  · intro hc
    unfold applyEventUpdated
    rw [(setFirstById_eq_none_iff e es).2 ((containsId_eq_false_iff e.id es).1 hc)]

/-- Witness for C4: updating id 1 in a mirror containing id 1 makes the lookup
for id 1 return the carried entity. -/
theorem c4_update_replaces_or_inserts_witness :
    findById 1 (applyEventUpdated ⟨1, "new", true, []⟩ [⟨1, "old", false, []⟩]) =
      some ⟨1, "new", true, []⟩ :=
  (((c4_update_replaces_or_inserts.2 ⟨1, "new", true, []⟩
      [⟨1, "old", false, []⟩]).1) (by decide)).1

/-- C5: snapshot replace deduplicates the fetched list by id keeping the last
occurrence of each id and replaces the mirror wholesale (the result does not
depend on the previous mirror contents). -/
theorem c5_snapshot_replace_dedupes_keeping_last :
    (∀ (fetched m₁ m₂ : List Event), snapshotReplace fetched m₁ = snapshotReplace fetched m₂) ∧
    (∀ l : List Event, (eventIds (dedupeById l)).Nodup) ∧
    (∀ (l : List Event) (i : Nat),
      findById i (dedupeById l) = (l.filter (fun e => e.id == i)).getLast?) := by
  refine ⟨fun _ _ _ => rfl, ?_, ?_⟩
  · intro l
    exact nodupIds_foldl_mapSet l [] (by simp [eventIds])
  · intro l i
    cases hg : (l.filter (fun e => e.id == i)).getLast? with
    | some e => exact findById_foldl_mapSet_of_getLast l [] i e hg
    | none =>
      rw [List.getLast?_eq_none_iff, List.filter_eq_nil_iff] at hg
      have habs : ∀ x ∈ l, x.id ≠ i := by
        intro x hx
        simpa using hg x hx
      rw [show dedupeById l = l.foldl mapSet [] from rfl,
        findById_foldl_mapSet_of_absent l [] i habs]
      rfl

/-! ### Broadcast dispatch and heartbeat lemmas -/

theorem broadcastEventUpdate_spec :
    ∀ conns : List Conn,
      broadcastEventUpdate conns =
        ⟨conns.filter deliverOk,
         (conns.filter deliverOk).map (fun c => c.id),
         (conns.filter deliverOk).length,
         (conns.filter (fun c => !deliverOk c)).length⟩ := by
  intro conns
  induction conns with
  | nil => rfl
  | cons ws rest ih =>
    by_cases h1 : ws.readyState = 1
    · by_cases h2 : ws.sendFails = true
      · simp [broadcastEventUpdate, ih, deliverOk, h1, h2, List.filter_cons]
      · simp [broadcastEventUpdate, ih, deliverOk, h1, h2, List.filter_cons]
    · simp [broadcastEventUpdate, ih, deliverOk, h1, List.filter_cons]

theorem tickConns_spec :
    ∀ conns : List SConn,
      tickConns conns =
        ((conns.filter (fun c => c.isAlive)).map (fun c => { c with isAlive := false }),
         (conns.filter (fun c => c.isAlive)).map (fun c => c.id),
         (conns.filter (fun c => !c.isAlive)).map (fun c => c.id)) := by
  intro conns
  induction conns with
  | nil => rfl
  | cons ws rest ih =>
    cases h : ws.isAlive with
    | true => simp [tickConns, ih, h, List.filter_cons]
    | false => simp [tickConns, ih, h, List.filter_cons]

theorem foldl_closeHandler_spec :
    ∀ (term : List Nat) (s : ServerState),
      (term.foldl (fun st i => closeHandler i st) s).connections = s.connections ∧
      (term.foldl (fun st i => closeHandler i st) s).eventsSubs =
        s.eventsSubs.filter (fun j => !term.contains j) ∧
      (term.foldl (fun st i => closeHandler i st) s).rsvpsSubs =
        s.rsvpsSubs.filter (fun j => !term.contains j) := by
  intro term
  induction term with
  | nil =>
    intro s
    refine ⟨rfl, ?_, ?_⟩ <;> simp
  | cons t ts ih =>
    intro s
    obtain ⟨h1, h2, h3⟩ := ih (closeHandler t s)
    refine ⟨h1, ?_, ?_⟩
    · rw [List.foldl_cons, h2]
      show (s.eventsSubs.filter (fun j => j != t)).filter (fun j => !ts.contains j) = _
      rw [List.filter_filter]
      apply List.filter_congr
      intro j _
      by_cases hjt : j = t <;> simp [hjt, List.contains_cons]
    · rw [List.foldl_cons, h3]
      show (s.rsvpsSubs.filter (fun j => j != t)).filter (fun j => !ts.contains j) = _
      rw [List.filter_filter]
      apply List.filter_congr
      intro j _
      by_cases hjt : j = t <;> simp [hjt, List.contains_cons]

theorem not_mem_alive_ids (ws : SConn) (hdead : ws.isAlive = false) :
    ∀ conns : List SConn, (conns.map (fun c => c.id)).Nodup → ws ∈ conns →
      ws.id ∉ (conns.filter (fun c => c.isAlive)).map (fun c => c.id) := by
  intro conns
  induction conns with
  | nil => intro _ hmem; simp at hmem
  | cons x rest ih =>
    intro hnd hmem
    rw [List.map_cons, List.nodup_cons] at hnd
    rcases List.mem_cons.1 hmem with rfl | hmem'
    · rw [List.filter_cons_of_neg (by simp [hdead])]
      intro hc
      exact hnd.1 ((List.Sublist.map (fun c => c.id)
        (List.filter_sublist rest)).subset hc)
    · by_cases hx : x.isAlive = true
      · rw [List.filter_cons_of_pos (by simp [hx])]
        simp only [List.map_cons, List.mem_cons]
        intro hc
        rcases hc with heq | hc
        · exact hnd.1 (heq ▸ List.mem_map_of_mem _ hmem')
        · exact ih hnd.2 hmem' hc
      · rw [List.filter_cons_of_neg (by simp [hx])]
        exact ih hnd.2 hmem'

theorem dispatchToHandlers_eq_map :
    ∀ (hs : List HandlerSpec) (m : ClientMsg),
      dispatchToHandlers hs m = hs.map (fun h => h.id) := by
  intro hs m
  induction hs with
  | nil => rfl
  | cons h rest ih =>
    unfold dispatchToHandlers
    cases hinv : invokeHandler h m with
    | ok v => simp [hinv, ih]
    | error e => simp [hinv, ih]

theorem handleMessage_closed_eq_false (w : Bool) (hs : List HandlerSpec)
    (f : Option ClientMsg) : (handleMessage w hs f).closed = false := by
  cases f with
  | none => rfl
  | some m =>
    by_cases h1 : m.type = "PING"
    · simp [handleMessage, h1]
    · by_cases h2 : m.type = "PONG"
      · simp [handleMessage, h1, h2]
      · by_cases h3 : m.type = "CONNECTED"
        · simp [handleMessage, h1, h2, h3]
        · by_cases h4 : m.type = "MESSAGE_RECEIVED"
          · simp [handleMessage, h1, h2, h3, h4]
          · simp [handleMessage, h1, h2, h3, h4]

/-- C6: the broadcast fallback loop delivers exactly to the connections that
are OPEN and whose send does not raise, removes every failed connection from
the registry, counts sends and failures, never delivers twice to the same
connection, and a dead subscriber among three does not prevent delivery to
the other two. -/
theorem c6_broadcast_failure_isolation :
    (∀ conns : List Conn,
      (broadcastEventUpdate conns).delivered = (conns.filter deliverOk).map (fun c => c.id) ∧
      (broadcastEventUpdate conns).remaining = conns.filter deliverOk ∧
      (broadcastEventUpdate conns).sentCount = (conns.filter deliverOk).length ∧
      (broadcastEventUpdate conns).failedCount =
        (conns.filter (fun c => !deliverOk c)).length) ∧
    (∀ conns : List Conn, (conns.map (fun c => c.id)).Nodup →
      (broadcastEventUpdate conns).delivered.Nodup) ∧
    ((broadcastEventUpdate [⟨1, 1, false⟩, ⟨2, 1, true⟩, ⟨3, 1, false⟩]).delivered = [1, 3] ∧
     (broadcastEventUpdate [⟨1, 1, false⟩, ⟨2, 1, true⟩, ⟨3, 1, false⟩]).remaining =
       [⟨1, 1, false⟩, ⟨3, 1, false⟩] ∧
     (broadcastEventUpdate [⟨1, 1, false⟩, ⟨2, 1, true⟩, ⟨3, 1, false⟩]).sentCount = 2 ∧
     (broadcastEventUpdate [⟨1, 1, false⟩, ⟨2, 1, true⟩, ⟨3, 1, false⟩]).failedCount = 1) := by
  refine ⟨?_, ?_, by decide⟩
  · intro conns
    rw [broadcastEventUpdate_spec]
    exact ⟨rfl, rfl, rfl, rfl⟩
  · intro conns hnd
    rw [broadcastEventUpdate_spec]
    exact List.Nodup.sublist
      (List.Sublist.map (fun c => c.id) (List.filter_sublist conns)) hnd

/-- Witness for C6: the id list of a singleton registry with distinct ids has
no duplicate deliveries. -/
theorem c6_broadcast_failure_isolation_witness :
    (broadcastEventUpdate [⟨4, 1, false⟩, ⟨5, 0, false⟩]).delivered.Nodup :=
  c6_broadcast_failure_isolation.2.1 [⟨4, 1, false⟩, ⟨5, 0, false⟩] (by decide)

/-- C7: on a heartbeat tick, a connection already marked not alive is
terminated: it is reported terminated, it leaves the live-connection set and
both topic subscriber sets; a connection marked alive is marked not alive
and pinged; a pong from the peer marks the connection alive again. -/
theorem heartbeatTick_spec (s : ServerState) :
    (heartbeatTick s).2.1 = (s.connections.filter (fun c => c.isAlive)).map (fun c => c.id) ∧
    (heartbeatTick s).2.2 = (s.connections.filter (fun c => !c.isAlive)).map (fun c => c.id) ∧
    (heartbeatTick s).1.connections =
      (s.connections.filter (fun c => c.isAlive)).map (fun c => { c with isAlive := false }) ∧
    (heartbeatTick s).1.eventsSubs =
      s.eventsSubs.filter (fun j =>
        !((s.connections.filter (fun c => !c.isAlive)).map (fun c => c.id)).contains j) ∧
    (heartbeatTick s).1.rsvpsSubs =
      s.rsvpsSubs.filter (fun j =>
        !((s.connections.filter (fun c => !c.isAlive)).map (fun c => c.id)).contains j) := by
  have hfold := foldl_closeHandler_spec
    ((s.connections.filter (fun c => !c.isAlive)).map (fun c => c.id))
    { s with connections :=
        (s.connections.filter (fun c => c.isAlive)).map (fun c => { c with isAlive := false }) }
  unfold heartbeatTick
  rw [tickConns_spec]
  exact ⟨rfl, rfl, hfold.1, hfold.2.1, hfold.2.2⟩

theorem c7_heartbeat_tick_behaviour :
    (∀ (s : ServerState) (ws : SConn),
      (s.connections.map (fun c => c.id)).Nodup → ws ∈ s.connections →
      (ws.isAlive = false →
        ws.id ∈ (heartbeatTick s).2.2 ∧
        ws.id ∉ ((heartbeatTick s).1.connections.map (fun c => c.id)) ∧
        ws.id ∉ (heartbeatTick s).1.eventsSubs ∧
        ws.id ∉ (heartbeatTick s).1.rsvpsSubs) ∧
      (ws.isAlive = true →
        ws.id ∈ (heartbeatTick s).2.1 ∧
        { ws with isAlive := false } ∈ (heartbeatTick s).1.connections)) ∧
    (∀ (i : Nat) (s : ServerState),
      ∀ ws ∈ (onPong i s).connections, ws.id = i → ws.isAlive = true) := by
  constructor
  · intro s ws hnd hmem
    obtain ⟨hping, hterm, hcon, hev, hrs⟩ := heartbeatTick_spec s
    constructor
    · intro hdead
      have hwt : ws.id ∈ (s.connections.filter (fun c => !c.isAlive)).map (fun c => c.id) :=
        List.mem_map_of_mem _ (List.mem_filter.2 ⟨hmem, by simp [hdead]⟩)
      refine ⟨by rw [hterm]; exact hwt, ?_, ?_, ?_⟩
      · rw [hcon, List.map_map]
        exact not_mem_alive_ids ws hdead s.connections hnd hmem
      · rw [hev]
        intro hc
        have hcc := (List.mem_filter.1 hc).2
        simp [hwt] at hcc
      · rw [hrs]
        intro hc
        have hcc := (List.mem_filter.1 hc).2
        simp [hwt] at hcc
    · intro halive
      have hwf : ws ∈ s.connections.filter (fun c => c.isAlive) :=
        List.mem_filter.2 ⟨hmem, by simp [halive]⟩
      constructor
      · rw [hping]
        exact List.mem_map_of_mem _ hwf
      · rw [hcon]
        exact List.mem_map_of_mem _ hwf
  · intro i s ws hws hid
    unfold onPong at hws
    obtain ⟨x, _, hx⟩ := List.mem_map.1 hws
    by_cases hxi : x.id = i
    · rw [if_pos hxi] at hx
      rw [← hx]
    · rw [if_neg hxi] at hx
      subst hx
      exact absurd hid hxi

/-- Witness for C7: in a registry with a live connection 1 and a dead
connection 2 subscribed to both topics, the tick removes 2 everywhere. -/
theorem c7_heartbeat_tick_behaviour_witness :
    2 ∈ (heartbeatTick ⟨[⟨1, true⟩, ⟨2, false⟩], [1, 2], [1, 2]⟩).2.2 ∧
    2 ∉ (heartbeatTick ⟨[⟨1, true⟩, ⟨2, false⟩], [1, 2], [1, 2]⟩).1.eventsSubs :=
  ⟨((c7_heartbeat_tick_behaviour.1 ⟨[⟨1, true⟩, ⟨2, false⟩], [1, 2], [1, 2]⟩
      ⟨2, false⟩ (by decide) (by decide)).1 rfl).1,
   ((c7_heartbeat_tick_behaviour.1 ⟨[⟨1, true⟩, ⟨2, false⟩], [1, 2], [1, 2]⟩
      ⟨2, false⟩ (by decide) (by decide)).1 rfl).2.2.1⟩

/-- Counterexample to C8 as stated: a frame of kind `MESSAGE_RECEIVED` is not
`PING`, `PONG` or the connected acknowledgment, yet `handleMessage` consumes
it internally and does not dispatch it to the registered handler, so it is
not the case that every message kind other than those three reaches every
registered handler. -/
theorem c8_message_received_not_dispatched :
    (handleMessage true [⟨0, fun _ => false⟩] (some ⟨"MESSAGE_RECEIVED", 0⟩)).invoked = [] ∧
    ([] : List Nat) ≠ [0] ∧
    ("MESSAGE_RECEIVED" : String) ≠ "PING" ∧
    ("MESSAGE_RECEIVED" : String) ≠ "PONG" ∧
    ("MESSAGE_RECEIVED" : String) ≠ "CONNECTED" := by
  refine ⟨rfl, by decide, by decide, by decide, by decide⟩

/-- C8 (amended): `PING`, `PONG`, the one-time connected acknowledgment AND
the `MESSAGE_RECEIVED` echo acknowledgment are consumed internally and never
forwarded to registered handlers; every other message kind is dispatched to
every registered handler in registration order, a throwing handler not
preventing the remaining handlers from running; an unparseable frame is
discarded without closing the connection, and the receive loop processes
every frame of any inbound sequence. -/
theorem c8_receive_isolation :
    (∀ (w : Bool) (hs : List HandlerSpec) (m : ClientMsg),
      (m.type = "PING" ∨ m.type = "PONG" ∨ m.type = "CONNECTED" ∨
        m.type = "MESSAGE_RECEIVED") →
      (handleMessage w hs (some m)).invoked = [] ∧
      (handleMessage w hs (some m)).closed = false) ∧
    (∀ (w : Bool) (hs : List HandlerSpec) (m : ClientMsg),
      m.type ≠ "PING" → m.type ≠ "PONG" → m.type ≠ "CONNECTED" →
      m.type ≠ "MESSAGE_RECEIVED" →
      (handleMessage w hs (some m)).invoked = hs.map (fun h => h.id) ∧
      (handleMessage w hs (some m)).closed = false) ∧
    (∀ (w : Bool) (hs : List HandlerSpec),
      handleMessage w hs none = ⟨[], [], false⟩) ∧
    (∀ (w : Bool) (hs : List HandlerSpec) (frames : List (Option ClientMsg)),
      recvLoop w hs frames = frames.map (handleMessage w hs)) := by
  refine ⟨?_, ?_, fun _ _ => rfl, ?_⟩
  · intro w hs m hm
    rcases hm with h | h | h | h
    · by_cases hw : w = true <;> simp [handleMessage, h, hw]
    · have h1 : m.type ≠ "PING" := by rw [h]; decide
      simp [handleMessage, h, h1]
    · have h1 : m.type ≠ "PING" := by rw [h]; decide
      have h2 : m.type ≠ "PONG" := by rw [h]; decide
      simp [handleMessage, h, h1, h2]
    · have h1 : m.type ≠ "PING" := by rw [h]; decide
      have h2 : m.type ≠ "PONG" := by rw [h]; decide
      have h3 : m.type ≠ "CONNECTED" := by rw [h]; decide
      simp [handleMessage, h, h1, h2, h3]
  · intro w hs m h1 h2 h3 h4
    simp [handleMessage, h1, h2, h3, h4, dispatchToHandlers_eq_map]
  · intro w hs frames
    induction frames with
    | nil => rfl
    | cons f fs ih =>
      simp only [recvLoop, handleMessage_closed_eq_false, List.map_cons]
      rw [ih]
      simp

/-- Witness for C8 (amended): a PING frame with one registered handler invokes
no handler; a frame of an application kind with one throwing and one normal
handler invokes both in order. -/
theorem c8_receive_isolation_witness :
    (handleMessage true [⟨0, fun _ => false⟩] (some ⟨"PING", 0⟩)).invoked = [] ∧
    (handleMessage true [⟨0, fun _ => true⟩, ⟨1, fun _ => false⟩]
      (some ⟨"EVENT_CREATED", 0⟩)).invoked = [0, 1] :=
  ⟨(c8_receive_isolation.1 true [⟨0, fun _ => false⟩] ⟨"PING", 0⟩ (Or.inl rfl)).1,
   (c8_receive_isolation.2.1 true [⟨0, fun _ => true⟩, ⟨1, fun _ => false⟩]
      ⟨"EVENT_CREATED", 0⟩ (by decide) (by decide) (by decide) (by decide)).1⟩

/-- C9: once the retry counter of the events store has reached the ceiling and
no timer is pending, no sequence of further closes or connect calls ever
schedules a retry; a manual disconnect clears the pending timer, resets the
counter to zero and closes the socket (the websocket.service.ts client
issues close code 1000, and the ensuing close event schedules nothing); a
connect call made after a disconnect starts with a zero attempt counter. -/
theorem c9_retry_ceiling_and_manual_reset :
    (∀ (s : StoreWsState) (evts : List StoreEvt),
      wsMaxRetries ≤ s.retry.wsRetryCount → s.retry.wsRetryTimeout = none →
      (runStore s evts).retry.wsRetryTimeout = none ∧
      wsMaxRetries ≤ (runStore s evts).retry.wsRetryCount) ∧
    (∀ s : StoreWsState,
      (disconnectWebSocket s).retry.wsRetryTimeout = none ∧
      (disconnectWebSocket s).retry.wsRetryCount = 0 ∧
      (disconnectWebSocket s).wsExists = false) ∧
    (∀ s : StoreWsState, (connectWebSocket (disconnectWebSocket s)).retry.wsRetryCount = 0) ∧
    (∀ s : P4State,
      (disconnect s).1.reconnectTimeout = none ∧
      (disconnect s).1.reconnectAttempts = 0 ∧
      (s.wsOpen = true → (disconnect s).2 = some 1000)) ∧
    (∀ s : P4State,
      (handleClose 1000 (disconnect s).1).reconnectTimeout = none ∧
      (handleClose 1000 (disconnect s).1).reconnectAttempts = 0) ∧
    (∀ s : P4State, (connect (disconnect s).1).reconnectAttempts = 0) := by
  refine ⟨?_, fun s => ⟨rfl, rfl, rfl⟩, fun s => rfl, ?_, ?_, fun s => rfl⟩
  · intro s evts
    induction evts generalizing s with
    | nil => intro h1 h2; exact ⟨h2, h1⟩
    | cons e es ih =>
      intro h1 h2
      cases e with
      | close =>
        refine ih (storeCloseStep s) ?_ ?_
        · simpa [storeCloseStep, oncloseAbnormal, Nat.not_lt.2 h1] using h1
        · simp [storeCloseStep, oncloseAbnormal, Nat.not_lt.2 h1]
      | connectCall =>
        refine ih (connectWebSocket s) ?_ ?_
        · simp [connectWebSocket, h1]
        · simp [connectWebSocket, h1, h2]
  · intro s
    refine ⟨rfl, rfl, ?_⟩
    intro h
    simp [disconnect, h]
  · intro s
    constructor <;> simp [handleClose, disconnect]

/-- Witness for C9: from the store state at the ceiling with no pending timer,
a close, a connect call and another close leave no retry scheduled. -/
theorem c9_retry_ceiling_and_manual_reset_witness :
    (runStore ⟨false, ⟨10, none⟩⟩ [.close, .connectCall, .close]).retry.wsRetryTimeout = none :=
  (c9_retry_ceiling_and_manual_reset.1 ⟨false, ⟨10, none⟩⟩ [.close, .connectCall, .close]
    (by decide) rfl).1

/-- C10: a broadcast RSVP message (created, updated or deleted) whose event id
is absent from the mirror leaves the mirror completely unchanged. -/
theorem c10_rsvp_for_absent_event_is_noop :
    ∀ (es : List Event) (eventId userId : Nat) (r : Rsvp),
      (∀ x ∈ es, x.id ≠ eventId) →
      handleWebSocketMessage (.rsvpCreated eventId userId r) es = es ∧
      handleWebSocketMessage (.rsvpUpdated eventId userId r) es = es ∧
      handleWebSocketMessage (.rsvpDeleted eventId userId) es = es := by
  intro es i u r h
  exact ⟨modifyFirstById_eq_self i _ es h,
         modifyFirstById_eq_self i _ es h,
         modifyFirstById_eq_self i _ es h⟩

/-- Witness for C10: deleting the RSVP of user 3 on the absent event 9 leaves
the one-event mirror untouched. -/
theorem c10_rsvp_for_absent_event_is_noop_witness :
    handleWebSocketMessage (.rsvpDeleted 9 3) [⟨1, "a", true, [⟨3, "GOING"⟩]⟩] =
      [⟨1, "a", true, [⟨3, "GOING"⟩]⟩] :=
  (c10_rsvp_for_absent_event_is_noop [⟨1, "a", true, [⟨3, "GOING"⟩]⟩] 9 3 ⟨3, "GOING"⟩
    (by decide)).2.2

end EventApp
